import Mathlib

/-!
Shallow embedding of the DoD contract scraper (`src/index.js`, two related
program variants) and proofs about its feed-item normalization, award
extraction heuristics, ingest orchestration and browsing-context lifecycle.

Strings are embedded as `List Char` so that all definitions are executable
and concrete runs can be settled by `decide`/`rfl`.  JavaScript numbers are
embedded as exact rationals together with an explicit IEEE-754 overflow
marker (`JsNum.inf`) at the double overflow threshold `2^1024`; `NaN` for
the `Number`/`Math.min`/`Math.max` pipeline of the ingest limit is the
`JsVal.nan` constructor.  Regular-expression fragments of the source are
translated into explicit character scans with the same leftmost-match,
greedy/lazy and backtracking behaviour.
-/

set_option maxRecDepth 10000

/-- Character strings of the embedded program. -/
abbrev Str := List Char

/-- ASCII apostrophe, written by code point to keep it out of literals. -/
def aposCh : Char := Char.ofNat 39

/-- Right single quotation mark U+2019, as used in the boilerplate regex. -/
def rsqCh : Char := Char.ofNat 8217

/-- JavaScript whitespace class `\s` (ASCII subset actually exercised). -/
def isJsWs (c : Char) : Bool :=
  c == ' ' || c == '\t' || c == '\n' || c == '\r' ||
  c == Char.ofNat 11 || c == Char.ofNat 12

/-- Regex word character `\w` = `[A-Za-z0-9_]`. -/
def wordCh (c : Char) : Bool := c.isAlphanum || c == '_'

/-- Case-insensitive character comparison, mirroring the `/i` regex flag
(ASCII case folding, which covers every pattern in the source). -/
def ciEq (a b : Char) : Bool := a.toLower == b.toLower

/-- Case-insensitive "the string begins with the pattern". -/
def ciStartsWith : Str → Str → Bool
  | [], _ => true
  | _ :: _, [] => false
  | p :: ps, c :: cs => ciEq p c && ciStartsWith ps cs

/-- Case-insensitive substring test: some suffix position begins with `pat`. -/
def ciContainsSub (pat : Str) : Str → Bool
  | [] => ciStartsWith pat []
  | c :: cs => ciStartsWith pat (c :: cs) || ciContainsSub pat cs

/-- Case-sensitive "begins with". -/
def plainStartsWith : Str → Str → Bool
  | [], _ => true
  | _ :: _, [] => false
  | p :: ps, c :: cs => (p == c) && plainStartsWith ps cs

/-- Case-sensitive substring test. -/
def plainContainsSub (pat : Str) : Str → Bool
  | [] => plainStartsWith pat []
  | c :: cs => plainStartsWith pat (c :: cs) || plainContainsSub pat cs

/-- Replace the first (leftmost, case-insensitive) occurrence of `pat` by
`rep`, the behaviour of JavaScript `String.replace` with a non-global `/i`
regex made of literal characters. -/
def ciReplaceOnce (pat rep : Str) : Str → Str
  | [] => if ciStartsWith pat [] then rep else []
  | c :: cs =>
    if ciStartsWith pat (c :: cs) then rep ++ (c :: cs).drop pat.length
    else c :: ciReplaceOnce pat rep cs

/-- JavaScript `String.trim` (ASCII whitespace subset). -/
def jsTrim (s : Str) : Str :=
  ((s.dropWhile isJsWs).reverse.dropWhile isJsWs).reverse

/-- JavaScript `String.toUpperCase` (ASCII, the range the source exercises). -/
def toUpper (s : Str) : Str := s.map Char.toUpper

/-- Decimal value of a digit string, `0` for the empty string — the value
ECMAScript `Number` gives the integer part of a stripped amount match. -/
def natOfDigits (s : Str) : ℕ := s.foldl (fun a c => a * 10 + (c.toNat - 48)) 0

/-! ## JavaScript numbers -/

/-- The IEEE-754 double overflow threshold: values at or above `2^1024`
convert to `Infinity`. -/
def dblOverflow : ℚ := mkRat (2 ^ 1024 : ℕ) 1

/-- A non-negative JavaScript number: an exact finite rational, or
`Infinity` after overflow.  (Rounding of in-range values is idealized as
exact; every concrete value the claims touch is exactly representable.) -/
inductive JsNum where
  | fin (q : ℚ)
  | inf
  deriving DecidableEq, Repr

/-- Conversion of the non-negative exact value `num / den` to a double,
overflowing at `2^1024` as ECMAScript `Number` does. -/
def mkJs (num den : ℕ) : JsNum :=
  if mkRat num den < dblOverflow then .fin (mkRat num den) else .inf

/-- A JavaScript number that may be `NaN`, for the ingest limit pipeline
`Math.max(1, Math.min(Number(limit), 20))`. -/
inductive JsVal where
  | num (q : ℚ)
  | nan
  deriving DecidableEq, Repr

/-- Model of `Math.min`: `NaN` absorbs. -/
def jsMin (a b : JsVal) : JsVal :=
  match a, b with
  | .nan, _ => .nan
  | _, .nan => .nan
  | .num x, .num y => .num (min x y)

/-- Model of `Math.max`: `NaN` absorbs. -/
def jsMax (a b : JsVal) : JsVal :=
  match a, b with
  | .nan, _ => .nan
  | _, .nan => .nan
  | .num x, .num y => .num (max x y)

/-- Signed decimal literal recognizer: the fragment of the ECMAScript
string-to-number grammar exercised here (`[+-]? digits [. digits]?` or
`[+-]? . digits`); other numeric forms (hex, exponent, `Infinity`) are out
of the exercised range and treated as non-numeric. -/
def decLit : Str → Option ℚ
  | t =>
    let core : Str → Option ℚ := fun r =>
      let intD := r.takeWhile Char.isDigit
      let r1 := r.drop intD.length
      match r1 with
      | [] => if intD = [] then none else some (mkRat (natOfDigits intD) 1)
      | '.' :: r2 =>
        let fracD := r2.takeWhile Char.isDigit
        let r3 := r2.drop fracD.length
        if r3 = [] ∧ (intD ≠ [] ∨ fracD ≠ []) then
          some (mkRat (natOfDigits intD * 10 ^ fracD.length + natOfDigits fracD)
            (10 ^ fracD.length))
        else none
      | _ => none
    match t with
    | '+' :: r => core r
    | '-' :: r => (core r).map Neg.neg
    | r => core r

/-- ECMAScript `Number(string)`: trim, empty means `0`, decimal literal,
otherwise `NaN`. -/
def jsToNumber (s : Str) : JsVal :=
  let t := jsTrim s
  if t = [] then .num 0
  else
    match decLit t with
    | some q => .num q
    | none => .nan

/-! ## `normalizeUrl` (src/index.js lines 99-109 and 498-503) -/

/-- The anchored replace of a leading `http:` by `https:` with the regex `^http:` under flag i. -/
def httpToHttps (s : Str) : Str :=
  if ciStartsWith ("http:".data) s then "https:".data ++ s.drop 5 else s

/-- The rewrite of the war.gov alias: regex `\/\/(www\.)?war\.gov\/` under flag i,
replacement `//www.defense.gov/`, first occurrence only, greedy optional `www.` tried first. -/
def warRepl : Str → Str
  | [] => []
  | c :: cs =>
    if ciStartsWith ("//www.war.gov/".data) (c :: cs) then
      "//www.defense.gov/".data ++ (c :: cs).drop 14
    else if ciStartsWith ("//war.gov/".data) (c :: cs) then
      "//www.defense.gov/".data ++ (c :: cs).drop 10
    else c :: warRepl cs

/-- The rewrite of the bare defense.gov host: regex `\/\/defense\.gov\/` under flag i,
replacement `//www.defense.gov/`. -/
def defRepl (s : Str) : Str :=
  ciReplaceOnce ("//defense.gov/".data) ("//www.defense.gov/".data) s

/-- Function `normalizeUrl` (first variant, lines 99-109): trim, force the scheme of
a leading `http:`, canonicalize the `war.gov` alias and the bare
`defense.gov` host.  The `try/catch` is dead for string inputs: none of the
string operations can throw. -/
def normalizeUrl (u : Str) : Str := defRepl (warRepl (httpToHttps (jsTrim u)))

/-- Function `normalizeUrl` (second variant, lines 498-503): identical chain without
the trim. -/
def normalizeUrl2 (u : Str) : Str := defRepl (warRepl (httpToHttps u))

/-! ## `parseAmount` (lines 155-164) -/

/-- Characters accepted by `[\d,]`. -/
def digitComma (c : Char) : Bool := c.isDigit || c == ','

/-- Given the text right after a matched `$`, build the rest of the match
of `\$[\d,]+(?:\.\d+)?(?:\s*(million|billion))?`: the greedy `[\d,]+` run,
the optional fraction, and the optional whitespace-plus-unit tail.
The caller guarantees the first character is in `[\d,]`. -/
def amountTail (rest : Str) : Str :=
  let run := rest.takeWhile digitComma
  let r1 := rest.drop run.length
  let frac :=
    match r1 with
    | '.' :: d :: _ => if d.isDigit then '.' :: (r1.drop 1).takeWhile Char.isDigit else []
    | _ => []
  let r2 := r1.drop frac.length
  let ws := r2.takeWhile isJsWs
  let r3 := r2.drop ws.length
  let unitP :=
    if ciStartsWith ("million".data) r3 then ws ++ r3.take 7
    else if ciStartsWith ("billion".data) r3 then ws ++ r3.take 7
    else []
  run ++ frac ++ unitP

/-- Leftmost match of `\$[\d,]+(?:\.\d+)?(?:\s*(million|billion))?`:
scan for a `$` followed by at least one `[\d,]` character. -/
def amountScan : Str → Option Str
  | [] => none
  | '$' :: rest =>
    if (match rest with | c :: _ => digitComma c | [] => false) then
      some ('$' :: amountTail rest)
    else amountScan rest
  | _ :: rest => amountScan rest

/-- Result record of `parseAmount`. -/
structure AmountRes where
  amount : Option JsNum
  unit : Option Str
  text : Option Str
  deriving DecidableEq, Repr

/-- The tail of `parseAmount`: `n = Number(stripped)` followed by the
conditional `n *= 1e9` / `n *= 1e6`, on the exact value `num / den` with
the unit factor `k`; an overflowed `Number` stays `Infinity` under
scaling. -/
def scaleAmount (num den k : ℕ) : JsNum :=
  match mkJs num den with
  | .inf => .inf
  | .fin _ => mkJs (num * k) den

/-- Function `parseAmount(s)` (lines 155-164): match the first dollar figure, strip
`$` and `,`, drop the unit word, convert with ECMAScript `Number`, then
scale by `1e9`/`1e6` when the match mentions billion/million. -/
def parseAmount (s : Str) : AmountRes :=
  match amountScan s with
  | none => ⟨none, none, none⟩
  | some m =>
    let stripped := m.filter (fun c => ¬ (c == '$' || c == ','))
    let intD := stripped.takeWhile Char.isDigit
    let r1 := stripped.drop intD.length
    let fracD :=
      match r1 with
      | '.' :: r2 => r2.takeWhile Char.isDigit
      | _ => []
    let num := natOfDigits intD * 10 ^ fracD.length + natOfDigits fracD
    let den := 10 ^ fracD.length
    let scale : ℕ :=
      if ciContainsSub ("billion".data) m then 10 ^ 9
      else if ciContainsSub ("million".data) m then 10 ^ 6
      else 1
    ⟨some (scaleAmount num den scale), some ("USD".data), some m⟩

/-! ## `parseVendors` (lines 166-172) -/

/-- Character class of the vendor-capture group: word, whitespace, ampersand,
dot, comma, apostrophe, slash, dash. -/
def classCh (c : Char) : Bool :=
  wordCh c || isJsWs c || c == '&' || c == '.' || c == ',' ||
  c == aposCh || c == '/' || c == '-'

/-- Helper for the delimiter alternatives `\s+of\s+`, `\s+for\s+`,
`\s+has been`, `\s+is being`: one-or-more whitespace, the word(s)
case-insensitively, optionally one trailing whitespace requirement.
`\s+` is greedy and the following character is never whitespace, so only
the maximal whitespace run can succeed. -/
def wsThen (w : Str) (trailWs : Bool) (s : Str) : Bool :=
  match s with
  | [] => false
  | c :: cs =>
    isJsWs c &&
      (let rest := (c :: cs).dropWhile isJsWs
       ciStartsWith w rest &&
         (if trailWs then
            match rest.drop w.length with
            | d :: _ => isJsWs d
            | [] => false
          else true))

/-- Delimiter alternation
`(?:,|\s+of\s+|\s+for\s+|\s+\$|\s+has been|\s+is being)` of `parseVendors`. -/
def delimAt (s : Str) : Bool :=
  match s with
  | ',' :: _ => true
  | _ =>
    wsThen ("of".data) true s || wsThen ("for".data) true s ||
    (match s with
     | c :: cs => isJsWs c && (match (c :: cs).dropWhile isJsWs with
        | '$' :: _ => true
        | _ => false)
     | [] => false) ||
    wsThen ("has been".data) false s || wsThen ("is being".data) false s

/-- Lazy scan of the anchored vendor pattern (class-characters `+?` lazy,
then the delimiter alternation): grow the capture one
class character at a time, checking the delimiter alternation before each
extension, exactly as a lazy `+?` does.  `acc` is the reversed capture. -/
def vendorGo (acc : Str) : Str → Option Str
  | [] => none
  | c :: cs =>
    if acc ≠ [] ∧ delimAt (c :: cs) then some acc.reverse
    else if classCh c then vendorGo (c :: acc) cs
    else none

/-- Function `parseVendors(s)` (lines 166-172): the trimmed leading capture, or an
empty list when the anchored pattern fails or the capture trims to empty. -/
def parseVendors (s : Str) : List Str :=
  match vendorGo [] s with
  | some v => let t := jsTrim v; if t = [] then [] else [t]
  | none => []

/-! ## `parseContractIds` (lines 174-179)

Pattern `\b[A-Z]{1,3}\w{1,10}-\d{2}-[A-Z]?\w{0,4}-?\w+\b`, global, with the
backtracking order of a regex engine: leftmost position first, outer
quantifiers keep the longest lengths, inner alternatives are exhausted
before an outer quantifier gives back a character. -/

/-- Final `\w+\b`: a maximal non-empty word-character run (after a maximal
run the boundary always holds). -/
def cidTailW (s : Str) (len : ℕ) : Option ℕ :=
  let f := (s.takeWhile wordCh).length
  if f = 0 then none else some (len + f)

/-- Fragment dash-optional then `\w+\b`, greedy on the optional dash. -/
def cidDashTail (s : Str) (len : ℕ) : Option ℕ :=
  match s with
  | '-' :: s6 =>
    match cidTailW s6 (len + 1) with
    | some r => some r
    | none => cidTailW s len
  | _ => cidTailW s len

/-- Fragment `\w` zero-to-four then dash-optional then `\w+\b`, greedy on
the bounded run. -/
def cidW04 (s : Str) (len : ℕ) : Option ℕ :=
  List.findSome? (fun d =>
      if (s.take d).length = d ∧ (s.take d).all wordCh then
        cidDashTail (s.drop d) (len + d)
      else none)
    [4, 3, 2, 1, 0]

/-- Fragment capital-optional then the bounded-run tail, greedy on the
optional capital. -/
def cidOptU (s : Str) (len : ℕ) : Option ℕ :=
  match s with
  | u :: s4 =>
    if u.isUpper then
      match cidW04 s4 (len + 1) with
      | some r => some r
      | none => cidW04 (u :: s4) len
    else cidW04 (u :: s4) len
  | [] => cidW04 [] len

/-- Length of the contract-id match starting exactly here, if any. -/
def cidCore (s : Str) : Option ℕ :=
  List.findSome? (fun a =>
      if (s.take a).length = a ∧ (s.take a).all Char.isUpper then
        let s1 := s.drop a
        List.findSome? (fun b =>
            if (s1.take b).length = b ∧ (s1.take b).all wordCh then
              match s1.drop b with
              | '-' :: d1 :: d2 :: '-' :: s3 =>
                if d1.isDigit ∧ d2.isDigit then cidOptU s3 (a + b + 4) else none
              | _ => none
            else none)
          [10, 9, 8, 7, 6, 5, 4, 3, 2, 1]
      else none)
    [3, 2, 1]

/-- Global scan: successive non-overlapping leftmost matches; `prevW`
tracks whether the previous character was a word character, for the
leading `\b`.  The fuel argument (at least the input length) keeps the
recursion structural: every step consumes at least one character, so the
fuel never runs out. -/
def cidScan : ℕ → Bool → Str → List Str
  | 0, _, _ => []
  | _ + 1, _, [] => []
  | fuel + 1, prevW, c :: cs =>
    if prevW then cidScan fuel (wordCh c) cs
    else
      match cidCore (c :: cs) with
      | some L => (c :: cs).take L :: cidScan fuel true (cs.drop (L - 1))
      | none => cidScan fuel (wordCh c) cs

/-- Function `parseContractIds(s)` (lines 174-179). -/
def parseContractIds (s : Str) : List Str := cidScan s.length false s

/-! ## Service headings and paragraph handling (lines 132-153, 181-228) -/

/-- The `SERVICES` list (lines 132-149). -/
def SERVICES : List Str :=
  [("ARMY".data), ("NAVY".data), ("AIR FORCE".data), ("MARINE CORPS".data),
   ("SPACE FORCE".data), ("DEFENSE LOGISTICS AGENCY".data),
   ("MISSILE DEFENSE AGENCY".data), ("U.S. SPECIAL OPERATIONS COMMAND".data),
   ("COAST GUARD".data), ("DEFENSE HEALTH AGENCY".data),
   ("DEFENSE INFORMATION SYSTEMS AGENCY".data),
   ("WASHINGTON HEADQUARTERS SERVICES".data),
   ("DEPARTMENT OF THE ARMY".data), ("DEPARTMENT OF THE NAVY".data),
   ("DEPARTMENT OF THE AIR FORCE".data), ("DEPARTMENT OF DEFENSE".data)]

/-- Match one service name, as compiled by
replacing every whitespace run by `\s+` in `serviceRe` (lines 150-153): spaces become
`\s+`, the unescaped dots of `U.S.` are regex wildcards, everything else is
a case-insensitive literal.  Returns the remaining input for the trailing
`\b` check. -/
def svcMatchPat : Str → Str → Option Str
  | [], s => some s
  | ' ' :: ps, s =>
    match s with
    | c :: cs => if isJsWs c then svcMatchPat ps (cs.dropWhile isJsWs) else none
    | [] => none
  | '.' :: ps, s =>
    match s with
    | _ :: cs => svcMatchPat ps cs
    | [] => none
  | p :: ps, s =>
    match s with
    | c :: cs => if ciEq p c then svcMatchPat ps cs else none
    | [] => none

/-- The `\b` after the service alternation: end of input or a non-word
character. -/
def svcBoundary (rest : Str) : Bool :=
  match rest with
  | [] => true
  | c :: _ => !wordCh c

/-- Test `serviceRe.test(line)`: does some service name match at the start,
followed by a word boundary? -/
def serviceTest (line : Str) : Bool :=
  SERVICES.any (fun svc =>
    match svcMatchPat svc line with
    | some rest => svcBoundary rest
    | none => false)

/-- Boilerplate skip regex of line 198: the two anchored alternatives
(editor-apostrophe-s note, today-apostrophe-s department), flag i, with
either apostrophe variant. -/
def boilerTest (line : Str) : Bool :=
  ciStartsWith ("editor".data ++ [rsqCh] ++ "s note".data) line ||
  ciStartsWith ("editor".data ++ [aposCh] ++ "s note".data) line ||
  ciStartsWith ("today".data ++ [rsqCh] ++ "s department".data) line ||
  ciStartsWith ("today".data ++ [aposCh] ++ "s department".data) line

/-- Removal of every carriage return, regex `\r` global. -/
def noCR (s : Str) : Str := s.filter (fun c => ¬ c == '\r')

/-- Split on `\n{2,}` (maximal runs of two or more newlines), the
behaviour of `split(/\n{2,}/)`; `acc` is the reversed current piece.  The
fuel argument (at least the input length) keeps the recursion structural:
every step consumes at least one character. -/
def paraGo : ℕ → Str → Str → List Str
  | 0, acc, _ => [acc.reverse]
  | _ + 1, acc, [] => [acc.reverse]
  | fuel + 1, acc, '\n' :: '\n' :: rest =>
    acc.reverse :: paraGo fuel [] (rest.dropWhile (· == '\n'))
  | fuel + 1, acc, c :: cs => paraGo fuel (c :: acc) cs

/-- Paragraph segmentation of `parseAwardsFromText` (lines 182-184). -/
def splitParas (s : Str) : List Str := paraGo (noCR s).length [] (noCR s)

/-- Removal of one trailing colon, regex colon-dollar on the uppercased line. -/
def stripColon (s : Str) : Str :=
  match s.getLast? with
  | some ':' => s.dropLast
  | _ => s

/-! ## `toISO` and events (lines 111-114, 200-224) -/

/-- Modelled from the platform: ECMAScript `Date.parse` restricted to the
ISO `YYYY-MM-DD` form actually distinguishable here; every other string is
unparsable (`NaN`).  The returned value is a simplified millisecond
timestamp, injective on this subset, standing in for the epoch value. -/
def jsDateParse (s : Str) : Option ℤ :=
  match s with
  | [y1, y2, y3, y4, h1, m1, m2, h2, d1, d2] =>
    if y1.isDigit ∧ y2.isDigit ∧ y3.isDigit ∧ y4.isDigit ∧ h1 = '-' ∧
        m1.isDigit ∧ m2.isDigit ∧ h2 = '-' ∧ d1.isDigit ∧ d2.isDigit then
      let y := natOfDigits [y1, y2, y3, y4]
      let mo := natOfDigits [m1, m2]
      let d := natOfDigits [d1, d2]
      if 1 ≤ mo ∧ mo ≤ 12 ∧ 1 ≤ d ∧ d ≤ 31 then
        some (((y * 372 + mo * 31 + d) * 86400000 : ℕ) : ℤ)
      else none
    else none
  | _ => none

/-- Function `toISO(d)` (lines 111-114): the parsed timestamp, or the current clock
`now` when parsing fails.  `new Date(t).toISOString()` is an injective
rendering of the timestamp and is left unmodelled; `published_at` carries
the timestamp itself. -/
def toISO (now : ℤ) (d : Str) : ℤ :=
  match jsDateParse d with
  | some t => t
  | none => now

/-- A feed item `{title, link, pub}` as produced by `parseRss` and consumed
as the `ctx` of `parseAwardsFromText`. -/
structure FeedItem where
  title : Str
  link : Str
  pub : Str
  deriving DecidableEq, Repr

/-- The AwardEvent object literal of lines 204-224.  The `meta` bag is
flattened into the three `meta_` fields. -/
structure AwardEvent where
  source : Str
  source_url : Str
  published_at : ℤ
  title : Str
  summary : Str
  body_text : Str
  agencies : List Str
  committees : List Str
  vendors : List Str
  tickers : List Str
  ciks : List Str
  bill_ids : List Str
  reason_codes : List Str
  amount : Option JsNum
  amount_unit : Option Str
  amount_text : Option Str
  contract_id : Option Str
  assistance_listing : Option Str
  meta_source_type : Str
  meta_original_link : Str
  meta_contract_ids : List Str
  deriving DecidableEq, Repr

/-- Event construction for one surviving paragraph (lines 200-224). -/
def mkEvent (now : ℤ) (ctx : FeedItem) (current line : Str) : AwardEvent :=
  let amt := parseAmount line
  let cids := parseContractIds line
  { source := "dod_contracts".data
    source_url := ctx.link
    published_at := toISO now ctx.pub
    title := current ++ " contract award".data
    summary := line.take 280
    body_text := line
    agencies := ["Department of Defense".data, current]
    committees := []
    vendors := parseVendors line
    tickers := []
    ciks := []
    bill_ids := []
    reason_codes := ["CONTRACT_AWARD".data, "DOD_PROCUREMENT".data]
    amount := amt.amount
    amount_unit := amt.unit
    amount_text := amt.text
    contract_id := cids.head?
    assistance_listing := none
    meta_source_type := "ingest".data
    meta_original_link := ctx.link
    meta_contract_ids := cids }

/-- The paragraph loop of `parseAwardsFromText` (lines 188-225): length
filter, heading detection (with the `DLA` expansion), boilerplate skip,
event emission; `current` is the running agency context. -/
def awardsGo (now : ℤ) (ctx : FeedItem) : Str → List Str → List AwardEvent
  | _, [] => []
  | current, p :: ps =>
    let line := jsTrim p
    if line = [] ∨ line.length < 40 then awardsGo now ctx current ps
    else if serviceTest (toUpper line) then
      let c1 := stripColon (toUpper line)
      let c2 := if c1 = "DLA".data then "DEFENSE LOGISTICS AGENCY".data else c1
      awardsGo now ctx c2 ps
    else if boilerTest line then awardsGo now ctx current ps
    else mkEvent now ctx current line :: awardsGo now ctx current ps

/-- Function `parseAwardsFromText(text, ctx)` (lines 181-228), with the clock of the run
(`now`) made explicit (it is read only by `toISO` when `ctx.pub` is
unparsable). -/
def parseAwardsFromText (now : ℤ) (text : Str) (ctx : FeedItem) : List AwardEvent :=
  awardsGo now ctx ("DEPARTMENT OF DEFENSE".data) (splitParas text)

/-! ## The ingest route (lines 347-428) -/

/-- Outcome oracle for the fallible per-item body of the ingest loop
(`page.goto` .. `page.evaluate`, lines 383-401): either the rendered text
or a thrown render error. -/
inductive RenderOutcome where
  | ok (text : Str)
  | fail
  deriving DecidableEq, Repr

/-- Outcome oracle for `saveToSupabase` (lines 230-255): `ok n` is a
return `{saved: n}` (`n = rows.length` when configured, `0` when the sink
is unconfigured); `fail msg` is the thrown non-success status error. -/
inductive SinkResult where
  | ok (saved : ℕ)
  | fail (msg : Str)
  deriving DecidableEq, Repr

/-- Response of the ingest route: the success JSON of lines 414-420 or the
error JSON of line 426. -/
inductive IngestResponse where
  | ok (articles events saved : ℕ) (sample : List AwardEvent)
  | err (msg : Str)
  deriving DecidableEq, Repr

/-- The success flag of the response object. -/
def isSuccessResp : IngestResponse → Bool
  | .ok _ _ _ _ => true
  | .err _ => false

/-- Events contributed by one feed item: the extraction of its rendered
text, or nothing when the per-item `try` of lines 383-404 catches a render
failure. -/
def itemEvents (now : ℤ) (x : FeedItem × RenderOutcome) : List AwardEvent :=
  match x.2 with
  | .fail => []
  | .ok text => parseAwardsFromText now text x.1

/-- The per-item loop of lines 366-405, accumulating `allEvents`. -/
def ingestLoop (now : ℤ) : List (FeedItem × RenderOutcome) → List AwardEvent
  | [] => []
  | x :: rest => itemEvents now x ++ ingestLoop now rest

/-- ECMAScript `ToIntegerOrInfinity` on a finite value: truncation toward
zero. -/
def jsTrunc (q : ℚ) : ℤ := Int.tdiv q.num q.den

/-- Element count produced by `items.slice(0, limit)` (line 362): `NaN`
ends give an empty slice; negative ends count from the back; the result is
clamped to the list length. -/
def sliceCount (len : ℕ) (v : JsVal) : ℕ :=
  match v with
  | .nan => 0
  | .num q =>
    let t := jsTrunc q
    if 0 ≤ t then min len t.toNat else ((len : ℤ) + t).toNat

/-- Expression `Number(req.query.limit || MAX_CONTRACTS)` (line 348) under the
default configuration `MAX_CONTRACTS = 5`: an absent or empty limit is
falsy and yields the default, any other string goes through `Number`. -/
def limitVal (p : Option Str) : JsVal :=
  match p with
  | none => .num 5
  | some s => if s = [] then .num 5 else jsToNumber s

/-- The limit clamp `Math.max(1, Math.min(Number(..), 20))` (line 348). -/
def clampedLimit (p : Option Str) : JsVal :=
  jsMax (.num 1) (jsMin (limitVal p) (.num 20))

/-- The ingest route (lines 347-428) from the point where the feed items
are in hand: slice by the clamped limit, run the per-item loop, then
persist if requested and any events accumulated.  A thrown sink error
lands in the outer catch (lines 421-427) and produces the error response;
otherwise the summary of lines 414-420 is returned. -/
def ingestRun (limitParam : Option Str) (feed : List (FeedItem × RenderOutcome))
    (doSave : Bool) (sink : SinkResult) (now : ℤ) : IngestResponse :=
  let taken := feed.take (sliceCount feed.length (clampedLimit limitParam))
  let evs := ingestLoop now taken
  if doSave && !evs.isEmpty then
    match sink with
    | .fail m => .err m
    | .ok n => .ok taken.length evs.length n (evs.take 3)
  else .ok taken.length evs.length 0 (evs.take 3)

/-! ## The contract-detail route: browsing-context lifecycle -/

/-- Outcome oracle for the three fallible page operations of a
contract-detail render: navigation (`page.goto`), DOM read
(`page.evaluate`), title read (`page.title`). -/
structure RenderProbe where
  gotoOk : Bool
  evalOk : Bool
  titleOk : Bool
  deriving DecidableEq, Repr

/-- What a contract-detail call leaves behind: whether a browsing context
was created, whether it was closed by the time the response was sent, and
whether the response was a success. -/
structure RenderTrace where
  ctxCreated : Bool
  ctxClosed : Bool
  succeeded : Bool
  deriving DecidableEq, Repr

/-- First contract-detail variant (lines 291-342): the context is closed
at line 332 on the success path, and the catch block (lines 335-341)
closes it again on any thrown error, so every exit path closes it. -/
def contractDetailV1 (p : RenderProbe) : RenderTrace :=
  if p.gotoOk then
    if p.evalOk then
      if p.titleOk then ⟨true, true, true⟩
      else ⟨true, true, false⟩
    else ⟨true, true, false⟩
  else ⟨true, true, false⟩

/-- Second contract-detail variant (lines 536-577): `ctx.close()` at line
569 runs only after goto, evaluate and title all succeed; the job has no
try/finally, and the route-level catch (lines 574-576) has no reference to
`ctx`, so a failing step skips the close. -/
def contractDetailV2 (p : RenderProbe) : RenderTrace :=
  if p.gotoOk then
    if p.evalOk then
      if p.titleOk then ⟨true, true, true⟩
      else ⟨true, false, false⟩
    else ⟨true, false, false⟩
  else ⟨true, false, false⟩

/-! ## Concrete fixtures used by the claim theorems -/

/-- A feed item with a parsable publication date. -/
def ctxC3 : FeedItem :=
  ⟨"Contracts".data, "https://www.defense.gov/News/Contracts/1".data,
   "2024-01-02".data⟩

/-- A feed item whose publication date does not parse. -/
def ctxC5 : FeedItem :=
  ⟨"Contracts".data, "https://www.defense.gov/News/Contracts/2".data,
   "yesterday".data⟩

/-- The end-to-end scenario text of the spec: the heading paragraph ARMY,
a blank line, and a 45+ character award paragraph. -/
def textC3 : Str :=
  ("ARMY\n\nXYZ Corp of Anytown, VA, has been awarded a $12.5 million contract... W912DY-24-C-0001").data

/-- A NAVY heading paragraph followed by a long award paragraph. -/
def textC4 : Str :=
  ("NAVY\n\nAcme Widgets of Springfield, VA, was awarded a $9 million deal for spare parts today.").data

/-- A single long award paragraph with no heading. -/
def textC5 : Str :=
  ("General Dynamics Land Systems was awarded a $44 million modification for vehicle upgrades.").data

/-- A long award paragraph whose dollar figure has 309 digits, past the
IEEE-754 double range. -/
def textC7 : Str :=
  ("Overpriced Futures Inc, was awarded a contract worth $").data ++
    List.replicate 309 '9' ++ (" in total.").data

/-- Fallback event for `List.headD` (never reached in the witnesses). -/
def dummyEvent : AwardEvent := mkEvent 0 ctxC3 [] []

/-- The single event extracted from `textC5`. -/
def eC7 : AwardEvent := (parseAwardsFromText 0 textC5 ctxC3).headD dummyEvent

/-- A one-item feed whose render succeeds with an award paragraph. -/
def feedC1 : List (FeedItem × RenderOutcome) := [(ctxC3, RenderOutcome.ok textC5)]

/-! ## Shared lemmas -/

/-- A string with no occurrence of the pattern passes `ciReplaceOnce`
unchanged. -/
theorem ciReplaceOnce_of_not_contains (pat rep : Str) (s : Str)
    (h : ciContainsSub pat s = false) : ciReplaceOnce pat rep s = s := by
  induction s with
  | nil =>
    simp only [ciContainsSub] at h
    simp [ciReplaceOnce, h]
  | cons c cs ih =>
    simp only [ciContainsSub, Bool.or_eq_false_iff] at h
    simp [ciReplaceOnce, h.1, ih h.2]

/-- Function `scaleAmount` yields `Infinity` or a non-negative finite value, in the
shape of the optional amount field. -/
theorem scaleAmount_opt_cases (num den k : ℕ) :
    some (scaleAmount num den k) = some JsNum.inf ∨
      ∃ q : ℚ, some (scaleAmount num den k) = some (JsNum.fin q) ∧ 0 ≤ q := by
  unfold scaleAmount
  cases h : mkJs num den with
  | inf => left; rfl
  | fin q0 =>
    simp only
    unfold mkJs
    split
    · right
      refine ⟨_, rfl, ?_⟩
      exact Rat.mkRat_nonneg (Int.ofNat_nonneg _) _
    · left; rfl

/-- The amount field of `parseAmount` is absent, overflowed, or a
non-negative finite value. -/
theorem parseAmount_amount_cases (s : Str) :
    (parseAmount s).amount = none ∨ (parseAmount s).amount = some JsNum.inf ∨
      ∃ q : ℚ, (parseAmount s).amount = some (JsNum.fin q) ∧ 0 ≤ q := by
  unfold parseAmount
  cases amountScan s with
  | none => left; rfl
  | some m =>
    right
    dsimp only
    exact scaleAmount_opt_cases _ _ _

/-- Every event emitted by the paragraph loop draws its amount from
`parseAmount` on some line. -/
theorem awardsGo_amount_shape (now : ℤ) (ctx : FeedItem) :
    ∀ (cur : Str) (ps : List Str) (e : AwardEvent), e ∈ awardsGo now ctx cur ps →
      ∃ line, e.amount = (parseAmount line).amount := by
  intro cur ps
  induction ps generalizing cur with
  | nil => intro e he; simp [awardsGo] at he
  | cons p ps ih =>
    intro e he
    simp only [awardsGo] at he
    split at he
    · exact ih _ e he
    · split at he
      · exact ih _ e he
      · split at he
        · exact ih _ e he
        · rcases List.mem_cons.mp he with rfl | hmem
          · exact ⟨jsTrim p, rfl⟩
          · exact ih _ e hmem

/-- The paragraph loop reads the clock only through `toISO now ctx.pub`. -/
theorem awardsGo_clock_congr (ctx : FeedItem) (n1 n2 : ℤ)
    (h : toISO n1 ctx.pub = toISO n2 ctx.pub) :
    ∀ (cur : Str) (ps : List Str),
      awardsGo n1 ctx cur ps = awardsGo n2 ctx cur ps := by
  intro cur ps
  induction ps generalizing cur with
  | nil => rfl
  | cons p ps ih =>
    simp only [awardsGo]
    split
    · exact ih _
    · split
      · exact ih _
      · split
        · exact ih _
        · simp only [mkEvent, h, ih _]

/-! ## Claim theorems -/

/-- C9: `parseAmount` on the dollar figure 2.4 million returns amount
2400000, the currency unit USD and the original matched text; on a string
with no dollar figure it returns the all-null result. -/
theorem parseAmount_examples :
    parseAmount ("$2.4 million".data) =
      ⟨some (JsNum.fin 2400000), some ("USD".data), some ("$2.4 million".data)⟩ ∧
    parseAmount ("no dollar figure here".data) = ⟨none, none, none⟩ :=
  ⟨by decide, by decide⟩

/-- C2 (failing evaluation): in the second contract-detail variant a
navigation failure creates a browsing context and returns without closing
it — the close call sits after the fallible steps and the catch block
cannot reach the context — while the first variant closes it on the same
failure.  This contradicts the scoped-release claim for the second
variant. -/
theorem contract_detail_v2_leaks_context_on_goto_failure :
    contractDetailV2 ⟨false, true, true⟩ =
      ⟨true, false, false⟩ ∧
    contractDetailV1 ⟨false, true, true⟩ = ⟨true, true, false⟩ :=
  ⟨rfl, rfl⟩

/-- C8: a per-item render failure contributes zero events and does not
abort the loop: the events of a batch with one failing item are exactly
the events of the items before it followed by the events of the items
after it. -/
theorem ingest_item_failure_isolated (now : ℤ)
    (pre post : List (FeedItem × RenderOutcome)) (it : FeedItem) :
    ingestLoop now (pre ++ (it, RenderOutcome.fail) :: post) =
      ingestLoop now pre ++ ingestLoop now post := by
  induction pre with
  | nil => simp [ingestLoop, itemEvents]
  | cons x xs ih => simp [ingestLoop, ih]

/-- C3 (counterexample): on the end-to-end scenario text the one emitted
event carries the agency pair Department of Defense / DEPARTMENT OF
DEFENSE, not Department of Defense / ARMY as claimed: the ARMY heading
paragraph is four characters long and the length filter drops it before
the heading check can update the context. -/
theorem scenario_army_agencies_cx :
    (parseAwardsFromText 0 textC3 ctxC3).map (fun e => e.agencies) =
      [[("Department of Defense".data), ("DEPARTMENT OF DEFENSE".data)]] ∧
    [[("Department of Defense".data), ("DEPARTMENT OF DEFENSE".data)]] ≠
      [[("Department of Defense".data), ("ARMY".data)]] :=
  ⟨by decide, by decide⟩

/-- C3 (amended): the scenario yields exactly one AwardEvent with vendor
XYZ Corp, amount 12500000 and contract id W912DY-24-C-0001, but with
agencies Department of Defense / DEPARTMENT OF DEFENSE, the initial
context, because the short ARMY heading is skipped by the 40-character
minimum. -/
theorem scenario_army_amended :
    (parseAwardsFromText 0 textC3 ctxC3).length = 1 ∧
    (parseAwardsFromText 0 textC3 ctxC3).map (fun e => e.agencies) =
      [[("Department of Defense".data), ("DEPARTMENT OF DEFENSE".data)]] ∧
    (parseAwardsFromText 0 textC3 ctxC3).map (fun e => e.vendors) =
      [[("XYZ Corp".data)]] ∧
    (parseAwardsFromText 0 textC3 ctxC3).map (fun e => e.amount) =
      [some (JsNum.fin 12500000)] ∧
    (parseAwardsFromText 0 textC3 ctxC3).map (fun e => e.contract_id) =
      [some ("W912DY-24-C-0001".data)] :=
  ⟨by decide, by decide, by decide, by decide, by decide⟩

/-- C4 (counterexample): NAVY is an enumerated heading and is the first
paragraph, yet the event emitted for the following paragraph still
carries DEPARTMENT OF DEFENSE, not NAVY: heading paragraphs never update
the agency context. -/
theorem heading_context_update_cx :
    ("NAVY".data ∈ SERVICES) ∧
    (splitParas textC4).head? = some ("NAVY".data) ∧
    (parseAwardsFromText 0 textC4 ctxC5).map (fun e => e.agencies) =
      [[("Department of Defense".data), ("DEPARTMENT OF DEFENSE".data)]] ∧
    [[("Department of Defense".data), ("DEPARTMENT OF DEFENSE".data)]] ≠
      [[("Department of Defense".data), ("NAVY".data)]] :=
  ⟨by decide, by decide, by decide, by decide⟩

/-- C4 (amended): a paragraph exactly equal to an enumerated heading is a
no-op for the extractor — it emits no event and leaves the agency context
unchanged — because every enumerated heading is shorter than the
40-character minimum and is discarded before the heading check. -/
theorem heading_paragraph_is_noop (svc : Str) (h : svc ∈ SERVICES)
    (now : ℤ) (ctx : FeedItem) (current : Str) (ps : List Str) :
    awardsGo now ctx current (svc :: ps) = awardsGo now ctx current ps := by
  fin_cases h <;> rfl

/-- Witness for the amended C4 theorem at the heading ARMY. -/
theorem heading_paragraph_is_noop_witness :
    ("ARMY".data ∈ SERVICES) ∧
    awardsGo 0 ctxC5 ("DEPARTMENT OF DEFENSE".data)
        (("ARMY".data) :: [textC5]) =
      awardsGo 0 ctxC5 ("DEPARTMENT OF DEFENSE".data) [textC5] :=
  ⟨by decide, heading_paragraph_is_noop ("ARMY".data) (by decide) 0 ctxC5 _ _⟩

/-- C5 (counterexample): with an unparsable publication date the
extraction is not deterministic across runs: two runs whose clocks differ
produce different event sequences (the published timestamp is taken from
the clock). -/
theorem extract_nondeterministic_cx :
    parseAwardsFromText 0 textC5 ctxC5 ≠ parseAwardsFromText 1 textC5 ctxC5 := by
  decide

/-- C5 (amended): whenever the publication date of the context parses,
the extraction is deterministic — runs at any two clock values produce
identical event sequences. -/
theorem extract_deterministic_of_parsable_pub (ctx : FeedItem) (t : ℤ)
    (h : jsDateParse ctx.pub = some t) (n1 n2 : ℤ) (text : Str) :
    parseAwardsFromText n1 text ctx = parseAwardsFromText n2 text ctx := by
  have hIso : toISO n1 ctx.pub = toISO n2 ctx.pub := by simp [toISO, h]
  unfold parseAwardsFromText
  exact awardsGo_clock_congr ctx n1 n2 hIso _ _

/-- Witness for the amended C5 theorem at a parsable date. -/
theorem extract_deterministic_of_parsable_pub_witness :
    jsDateParse ctxC3.pub = some 65055830400000 ∧
    parseAwardsFromText 0 textC5 ctxC3 = parseAwardsFromText 99 textC5 ctxC3 :=
  ⟨by decide,
   extract_deterministic_of_parsable_pub ctxC3 65055830400000 (by decide) 0 99 textC5⟩

/-- C7 (counterexample): a paragraph whose dollar figure has 309 digits
produces an event whose amount is Infinity — not null and not a finite
number — because ECMAScript number conversion overflows at `2^1024`. -/
theorem award_amount_not_finite_cx :
    (parseAwardsFromText 0 textC7 ctxC5).map (fun e => e.amount) =
      [some JsNum.inf] ∧
    (some JsNum.inf ≠ (none : Option JsNum)) ∧
    (∀ q : ℚ, some JsNum.inf ≠ some (JsNum.fin q)) := by
  refine ⟨by decide, by decide, fun q h => by cases h⟩

/-- C7 (amended): every emitted AwardEvent has an amount that is null,
positive infinity (a dollar figure whose converted or scaled value reaches
the IEEE-754 double overflow threshold), or a non-negative finite
number. -/
theorem award_amount_nonneg_or_inf (now : ℤ) (text : Str) (ctx : FeedItem)
    (e : AwardEvent) (h : e ∈ parseAwardsFromText now text ctx) :
    e.amount = none ∨ e.amount = some JsNum.inf ∨
      ∃ q : ℚ, e.amount = some (JsNum.fin q) ∧ 0 ≤ q := by
  obtain ⟨line, hline⟩ := awardsGo_amount_shape now ctx _ _ e h
  rw [hline]
  exact parseAmount_amount_cases line

/-- Witness for the amended C7 theorem at a concrete extraction. -/
theorem award_amount_nonneg_or_inf_witness :
    eC7 ∈ parseAwardsFromText 0 textC5 ctxC3 ∧
    (eC7.amount = none ∨ eC7.amount = some JsNum.inf ∨
      ∃ q : ℚ, eC7.amount = some (JsNum.fin q) ∧ 0 ≤ q) :=
  ⟨by decide, award_amount_nonneg_or_inf 0 textC5 ctxC3 eC7 (by decide)⟩

/-- C1 (counterexample): with persistence requested and a failing sink,
the ingest route answers with the error response — not with the computed
event batch and a saved count of zero.  The third conjunct shows events
had in fact been computed for this feed. -/
theorem ingest_sink_error_drops_events_cx :
    ingestRun none feedC1 true (SinkResult.fail ("boom".data)) 0 =
      IngestResponse.err ("boom".data) ∧
    isSuccessResp (ingestRun none feedC1 true (SinkResult.fail ("boom".data)) 0) =
      false ∧
    ingestLoop 0 feedC1 ≠ [] :=
  ⟨by decide, by decide, by decide⟩

/-- C1 (amended): if persistence is requested, events were computed, and
the sink call fails, the ingest route returns the error response carrying
the sink message; the computed events are not returned to the caller. -/
theorem ingest_sink_error_returns_error (limitParam : Option Str)
    (feed : List (FeedItem × RenderOutcome)) (now : ℤ) (msg : Str)
    (h : ingestLoop now
        (feed.take (sliceCount feed.length (clampedLimit limitParam))) ≠ []) :
    ingestRun limitParam feed true (SinkResult.fail msg) now =
      IngestResponse.err msg := by
  unfold ingestRun
  have hE : (ingestLoop now
      (feed.take (sliceCount feed.length (clampedLimit limitParam)))).isEmpty =
        false := by
    cases hc : ingestLoop now
        (feed.take (sliceCount feed.length (clampedLimit limitParam))) with
    | nil => exact absurd hc h
    | cons a l => rfl
  simp [hE]

/-- Witness for the amended C1 theorem at a concrete failing sink. -/
theorem ingest_sink_error_returns_error_witness :
    (ingestLoop 0 (feedC1.take (sliceCount feedC1.length (clampedLimit none))) ≠ []) ∧
    ingestRun none feedC1 true (SinkResult.fail ("boom".data)) 0 =
      IngestResponse.err ("boom".data) :=
  ⟨by decide,
   ingest_sink_error_returns_error none feedC1 0 ("boom".data) (by decide)⟩

/-- C6 (counterexample): `normalizeUrl` on the bare input war.gov returns
it unchanged — the output neither uses the https scheme nor is free of
the superseded alias host (the alias rewrite fires only on occurrences of
the form slash-slash host slash). -/
theorem normalizeUrl_insecure_cx :
    normalizeUrl ("war.gov".data) = "war.gov".data ∧
    plainStartsWith ("https:".data) (normalizeUrl ("war.gov".data)) = false ∧
    plainContainsSub ("war.gov".data) (normalizeUrl ("war.gov".data)) = true :=
  ⟨by decide, by decide, by decide⟩

/-- C6 (amended): on inputs of the alias-link shape — a leading
http scheme, the www.war.gov host with a trailing slash, and a remainder
free of the alias substring, of the bare defense.gov pattern and of
surrounding whitespace — `normalizeUrl` produces the secure canonical
link: the https scheme, the canonical host, and no occurrence of the
alias host.  General inputs (the counterexample) have no such
guarantee. -/
theorem normalizeUrl_war_gov_rewrite (rest : Str)
    (h1 : plainContainsSub ("war.gov".data) rest = false)
    (h2 : ciContainsSub ("//defense.gov/".data) ('/' :: rest) = false)
    (h3 : jsTrim ("http://www.war.gov/".data ++ rest) =
      "http://www.war.gov/".data ++ rest) :
    normalizeUrl ("http://www.war.gov/".data ++ rest) =
      "https://www.defense.gov/".data ++ rest ∧
    ciStartsWith ("https:".data)
      (normalizeUrl ("http://www.war.gov/".data ++ rest)) = true ∧
    plainContainsSub ("war.gov".data)
      (normalizeUrl ("http://www.war.gov/".data ++ rest)) = false := by
  have heq : normalizeUrl ("http://www.war.gov/".data ++ rest) =
      defRepl ("https://www.defense.gov/".data ++ rest) := by
    unfold normalizeUrl
    rw [h3]
    rfl
  have hid : defRepl ("https://www.defense.gov/".data ++ rest) =
      "https://www.defense.gov/".data ++ rest := by
    apply ciReplaceOnce_of_not_contains
    exact h2
  refine ⟨heq.trans hid, ?_, ?_⟩
  · rw [heq, hid]
    rfl
  · rw [heq, hid]
    exact h1

/-- Witness for the amended C6 theorem on a concrete alias link. -/
theorem normalizeUrl_war_gov_rewrite_witness :
    (plainContainsSub ("war.gov".data) ("news/x".data) = false) ∧
    (ciContainsSub ("//defense.gov/".data) ('/' :: ("news/x".data)) = false) ∧
    (jsTrim ("http://www.war.gov/".data ++ "news/x".data) =
      "http://www.war.gov/".data ++ "news/x".data) ∧
    normalizeUrl ("http://www.war.gov/".data ++ "news/x".data) =
      "https://www.defense.gov/".data ++ "news/x".data :=
  ⟨by decide, by decide, by decide,
   (normalizeUrl_war_gov_rewrite ("news/x".data) (by decide) (by decide)
      (by decide)).1⟩

/-- C10: a non-empty limit query string that does not read as a number
turns the clamped bound into NaN, the slice into the empty list, and the
ingest into a success with zero articles, zero events, zero saved and an
empty sample — regardless of the feed, the save flag and the sink. -/
theorem ingest_nan_limit_zero_items (s : Str)
    (feed : List (FeedItem × RenderOutcome)) (doSave : Bool)
    (sink : SinkResult) (now : ℤ)
    (hne : s ≠ []) (hnan : jsToNumber s = JsVal.nan) :
    ingestRun (some s) feed doSave sink now = IngestResponse.ok 0 0 0 [] := by
  unfold ingestRun clampedLimit limitVal
  simp [hne, hnan, jsMin, jsMax, sliceCount, ingestLoop]

/-- Witness for the C10 theorem at the limit string abc. -/
theorem ingest_nan_limit_zero_items_witness :
    (("abc".data : Str) ≠ []) ∧ jsToNumber ("abc".data) = JsVal.nan ∧
    ingestRun (some ("abc".data)) feedC1 true (SinkResult.ok 7) 0 =
      IngestResponse.ok 0 0 0 [] :=
  ⟨by decide, by decide,
   ingest_nan_limit_zero_items ("abc".data) feedC1 true (SinkResult.ok 7) 0
     (by decide) (by decide)⟩
